import Mathlib

/-!
Verification of the bank-account accounting engine in
`src/bank_account_bugs.py` against its specification.

Shallow embedding notes:
* Python floats are modelled as rationals (`ℚ`); the claims are about the
  exact accounting arithmetic, not rounding.
* The source selects one of several deliberate bugs through the environment
  variable `TESTCASE`, defaulting to `0` (no bug active: every `bug(i)` test
  with `i ∈ 1..10` is false).  The embedding keeps every `bug(...)` branch of
  the source, with `TESTCASE = 0` as in the default environment the spec
  describes.
* Python methods mutate the account and signal errors by raising; the
  embedding passes the state explicitly: each operation returns a pair of an
  `Except` result and the account after the call.  In the source every raise
  happens before any field is touched, so on an error the returned account is
  the input account unchanged.
* `money.py` and `check.py` are not in the repository sources; the `Money`
  and `Check` value types are modelled from the spec (see their comments).
-/

set_option autoImplicit false

namespace BankOracle

/-- The selected test case.  The source reads `os.getenv('TESTCASE','0')`;
the default environment gives `0`, meaning no bug is active. -/
def TESTCASE : Nat := 0

def BUG_CANT_WITHDRAW_AVAILABLE : Nat := 1

def BUG_WITHDRAW_FAILS_SILENTLY : Nat := 2

def BUG_DEPOSIT_ZERO : Nat := 3

def BUG_CLEAR_ANY_CHECK : Nat := 4

def BUG_DUPLICATE_CHECK : Nat := 5

def BUG_DEPOSIT_ANY_PAYEE : Nat := 6

def BUG_BALANCE_EXCLUDES_HOLDS : Nat := 7

def NO_DEFECTS : Nat := 8

def BUG_AVAILABLE_BALANCE : Nat := 9

def BUG_MINIMUM_IS_IGNORED : Nat := 10

/-- Source `def bug(index): return index == TESTCASE`. -/
def bug (index : Nat) : Bool := index == TESTCASE

/-- Modelled from the spec: the `Check` value type of the missing `check.py`.
An immutable value with an amount, a payee name (empty meaning "no
restriction") and a `check_number` identifier; the spec directs that the
source's object identity be modelled as this stable caller-assigned
identity, so the whole record serves as the set key. -/
structure Check where
  value : ℚ
  payee : String
  check_number : Nat
deriving DecidableEq, Repr

/-- Modelled from the spec: the `Money` value type of the missing `money.py`
(an immutable monetary amount); a `Check` is a variant/subtype of `Money`. -/
inductive Money where
  | cash (value : ℚ)
  | check (c : Check)
deriving DecidableEq, Repr

/-- Accessor `money.value`: the amount of a `Money`, a check contributing its value. -/
def Money.value : Money → ℚ
  | .cash v => v
  | .check c => c.value

/-- The error conditions the source raises: Python `ValueError` and the
source's `CheckError`, each with its message.  Spec error kinds map as:
`InvalidAmount` and `InsufficientFunds` are `ValueError`s, `CheckRejected`
and `CheckNotPending` are `CheckError`s. -/
inductive BankError where
  | valueError (msg : String)
  | checkError (msg : String)
deriving DecidableEq, Repr

/-- The state of a `BankAccount`: owner name, the private `__balance`
accumulator (the spec's `total_balance`), the minimum required balance, and
the pending/deposited check lists. -/
structure BankAccount where
  name : String
  total_balance : ℚ
  min_balance : ℚ
  pending_checks : List Check
  deposited_checks : List Check
deriving DecidableEq, Repr

/-- Constructor `BankAccount.__init__`: fresh account with the given owner name and
minimum balance.  The source asserts `min_balance >= 0`; that precondition
is carried by the reachability relation below. -/
def BankAccount.init (name : String) (min_balance : ℚ) : BankAccount :=
  { name := name
    total_balance := 0
    min_balance := min_balance
    pending_checks := []
    deposited_checks := [] }

/-- The local `sum_holds` computed inside `available` (and inside the
`balance` bug branch): total value of the pending checks. -/
def BankAccount.sum_holds (a : BankAccount) : ℚ :=
  (a.pending_checks.map Check.value).sum

/-- The `available` property of the source, bug branches included. -/
def BankAccount.available (a : BankAccount) : ℚ :=
  let avail :=
    if bug BUG_AVAILABLE_BALANCE = true then
      a.total_balance - a.min_balance - a.sum_holds
    else if bug BUG_MINIMUM_IS_IGNORED = true then
      a.total_balance - a.sum_holds
    else
      a.total_balance - max a.min_balance a.sum_holds
  if avail > 0 then avail else 0

/-- The `balance` property of the source, bug branch included. -/
def BankAccount.balance (a : BankAccount) : ℚ :=
  let hold_amount :=
    if bug BUG_BALANCE_EXCLUDES_HOLDS = true then a.sum_holds else 0
  a.total_balance - hold_amount

/-- Method `clear_check`: remove the check from the pending list if present,
otherwise raise `CheckError` (unless the clear-any-check bug is active). -/
def BankAccount.clear_check (a : BankAccount) (check : Check) :
    Except BankError Unit × BankAccount :=
  if check ∈ a.pending_checks then
    (.ok (), { a with pending_checks := a.pending_checks.erase check })
  else if ¬ bug BUG_CLEAR_ANY_CHECK = true then
    (.error (.checkError
      ("Check " ++ toString check.check_number ++ " is not an uncleared check")), a)
  else
    (.ok (), a)

/-- Method `deposit`: validate the value (and for checks the payee and duplicate
conditions), then credit the balance; a check is appended to both the
pending and the deposited lists. -/
def BankAccount.deposit (a : BankAccount) (money : Money) :
    Except BankError Unit × BankAccount :=
  if money.value ≤ 0 ∧ ¬ (money.value = 0 ∧ bug BUG_DEPOSIT_ZERO = true) then
    (.error (.valueError "Value to deposit must be positive."), a)
  else
    match money with
    | .cash v => (.ok (), { a with total_balance := a.total_balance + v })
    | .check check =>
      if check.payee ≠ "" ∧ check.payee.toLower ≠ a.name.toLower ∧
          ¬ bug BUG_DEPOSIT_ANY_PAYEE = true then
        (.error (.checkError
          ("Check payee " ++ check.payee ++ " is not account owner")), a)
      else if check ∈ a.deposited_checks ∧ ¬ bug BUG_DUPLICATE_CHECK = true then
        (.error (.checkError "Check already deposited"), a)
      else
        (.ok (), { a with
          pending_checks := a.pending_checks ++ [check]
          deposited_checks := a.deposited_checks ++ [check]
          total_balance := a.total_balance + check.value })

/-- Method `withdraw`: validate positivity and the available-balance bound, then
construct the `Money` result and debit the balance.  The silent-failure bug
branch returns `none` in place of a `Money`, hence the `Option`. -/
def BankAccount.withdraw (a : BankAccount) (amount : ℚ) :
    Except BankError (Option Money) × BankAccount :=
  if amount ≤ 0 then
    (.error (.valueError "Amount to withdraw must be positive"), a)
  else if amount > a.available then
    if bug BUG_WITHDRAW_FAILS_SILENTLY = true then
      (.ok none, a)
    else
      (.error (.valueError "Amount exceeds available balance"), a)
  else if amount = a.available ∧ bug BUG_CANT_WITHDRAW_AVAILABLE = true then
    (.error (.valueError "Amount exceeds available balance"), a)
  else
    (.ok (some (Money.cash amount)),
     { a with total_balance := a.total_balance - amount })

/-- Account states reachable from a fresh account (the constructor's
assertion `min_balance >= 0` having passed) by any sequence of `deposit`,
`clear_check` and `withdraw` calls, successful or failing. -/
inductive Reachable : BankAccount → Prop where
  | init (name : String) (mb : ℚ) (h : 0 ≤ mb) :
      Reachable (BankAccount.init name mb)
  | deposit (a : BankAccount) (m : Money) (ha : Reachable a) :
      Reachable (a.deposit m).2
  | clear (a : BankAccount) (c : Check) (ha : Reachable a) :
      Reachable (a.clear_check c).2
  | withdraw (a : BankAccount) (amt : ℚ) (ha : Reachable a) :
      Reachable (a.withdraw amt).2

/-- The representation invariant of an account. -/
def Inv (a : BankAccount) : Prop :=
  0 ≤ a.min_balance ∧
  0 ≤ a.total_balance ∧
  (∀ c ∈ a.pending_checks, c ∈ a.deposited_checks) ∧
  a.pending_checks.Nodup ∧
  a.deposited_checks.Nodup ∧
  (∀ c ∈ a.deposited_checks,
    0 < c.value ∧ (c.payee = "" ∨ c.payee.toLower = a.name.toLower))

lemma bug_cant_withdraw : bug BUG_CANT_WITHDRAW_AVAILABLE = false := rfl

lemma bug_silent : bug BUG_WITHDRAW_FAILS_SILENTLY = false := rfl

lemma bug_zero : bug BUG_DEPOSIT_ZERO = false := rfl

lemma bug_clear_any : bug BUG_CLEAR_ANY_CHECK = false := rfl

lemma bug_dup : bug BUG_DUPLICATE_CHECK = false := rfl

lemma bug_payee : bug BUG_DEPOSIT_ANY_PAYEE = false := rfl

lemma bug_excl_holds : bug BUG_BALANCE_EXCLUDES_HOLDS = false := rfl

lemma bug_avail : bug BUG_AVAILABLE_BALANCE = false := rfl

lemma bug_min_ignored : bug BUG_MINIMUM_IS_IGNORED = false := rfl

/-- With no bug active, `available` is the held-back formula floored at 0. -/
lemma available_eq (a : BankAccount) :
    a.available = max 0 (a.total_balance - max a.min_balance a.sum_holds) := by
  unfold BankAccount.available
  simp only [bug_avail, bug_min_ignored, Bool.false_eq_true, if_false]
  rcases le_or_lt (a.total_balance - max a.min_balance a.sum_holds) 0 with h | h
  · rw [if_neg (not_lt.mpr h), max_eq_left h]
  · rw [if_pos h, max_eq_right h.le]

/-- The `available` query never returns a negative number. -/
lemma available_nonneg (a : BankAccount) : 0 ≤ a.available :=
  (available_eq a) ▸ le_max_left 0 _

/-- With no bug active, `balance` is exactly the `total_balance` field. -/
lemma balance_eq (a : BankAccount) : a.balance = a.total_balance := by
  unfold BankAccount.balance
  simp [bug_excl_holds]

/-- Under the invariant's sign conditions, `available ≤ total_balance`. -/
lemma available_le_total (a : BankAccount) (hmb : 0 ≤ a.min_balance)
    (htb : 0 ≤ a.total_balance) : a.available ≤ a.total_balance := by
  rw [available_eq]
  refine max_le htb ?_
  have : 0 ≤ max a.min_balance a.sum_holds := le_trans hmb (le_max_left _ _)
  linarith

/-- Calling `clear_check` on a pending check removes its first occurrence. -/
lemma clear_check_mem (a : BankAccount) (c : Check) (h : c ∈ a.pending_checks) :
    a.clear_check c =
      (.ok (), { a with pending_checks := a.pending_checks.erase c }) := by
  unfold BankAccount.clear_check
  rw [if_pos h]

/-- Calling `clear_check` on a non-pending check raises and changes nothing. -/
lemma clear_check_not_mem (a : BankAccount) (c : Check)
    (h : c ∉ a.pending_checks) :
    a.clear_check c =
      (.error (.checkError
        ("Check " ++ toString c.check_number ++ " is not an uncleared check")), a) := by
  unfold BankAccount.clear_check
  rw [if_neg h, if_pos (by simp [bug_clear_any])]

/-- Depositing a non-positive value raises and changes nothing. -/
lemma deposit_nonpos (a : BankAccount) (m : Money) (h : m.value ≤ 0) :
    a.deposit m = (.error (.valueError "Value to deposit must be positive."), a) := by
  unfold BankAccount.deposit
  rw [if_pos ⟨h, by simp [bug_zero]⟩]

/-- Depositing positive cash credits the balance and touches nothing else. -/
lemma deposit_cash (a : BankAccount) (v : ℚ) (h : 0 < v) :
    a.deposit (.cash v) =
      (.ok (), { a with total_balance := a.total_balance + v }) := by
  unfold BankAccount.deposit
  rw [if_neg (fun hc => absurd hc.1 (not_le.mpr h))]

/-- Depositing a check with a non-empty, non-matching payee raises. -/
lemma deposit_check_payee_mismatch (a : BankAccount) (c : Check)
    (hv : 0 < c.value) (h1 : c.payee ≠ "") (h2 : c.payee.toLower ≠ a.name.toLower) :
    a.deposit (.check c) =
      (.error (.checkError
        ("Check payee " ++ c.payee ++ " is not account owner")), a) := by
  unfold BankAccount.deposit
  rw [if_neg (fun hc => absurd hc.1 (not_le.mpr hv))]
  exact if_pos ⟨h1, h2, by simp [bug_payee]⟩

/-- Depositing a payable check that is already on record raises. -/
lemma deposit_check_dup (a : BankAccount) (c : Check) (hv : 0 < c.value)
    (hp : c.payee = "" ∨ c.payee.toLower = a.name.toLower)
    (hd : c ∈ a.deposited_checks) :
    a.deposit (.check c) = (.error (.checkError "Check already deposited"), a) := by
  unfold BankAccount.deposit
  rw [if_neg (fun hc => absurd hc.1 (not_le.mpr hv))]
  have hpay : ¬ (c.payee ≠ "" ∧ c.payee.toLower ≠ a.name.toLower ∧
      ¬ bug BUG_DEPOSIT_ANY_PAYEE = true) :=
    fun hc => hp.elim (fun h => hc.1 h) (fun h => hc.2.1 h)
  show (if c.payee ≠ "" ∧ c.payee.toLower ≠ a.name.toLower ∧
      ¬ bug BUG_DEPOSIT_ANY_PAYEE = true then _ else _) = _
  rw [if_neg hpay]
  exact if_pos ⟨hd, by simp [bug_dup]⟩

/-- Depositing a fresh payable check appends it to both lists and credits
the balance. -/
lemma deposit_check_ok (a : BankAccount) (c : Check) (hv : 0 < c.value)
    (hp : c.payee = "" ∨ c.payee.toLower = a.name.toLower)
    (hd : c ∉ a.deposited_checks) :
    a.deposit (.check c) =
      (.ok (), { a with
        pending_checks := a.pending_checks ++ [c]
        deposited_checks := a.deposited_checks ++ [c]
        total_balance := a.total_balance + c.value }) := by
  unfold BankAccount.deposit
  rw [if_neg (fun hc => absurd hc.1 (not_le.mpr hv))]
  have hpay : ¬ (c.payee ≠ "" ∧ c.payee.toLower ≠ a.name.toLower ∧
      ¬ bug BUG_DEPOSIT_ANY_PAYEE = true) :=
    fun hc => hp.elim (fun h => hc.1 h) (fun h => hc.2.1 h)
  show (if c.payee ≠ "" ∧ c.payee.toLower ≠ a.name.toLower ∧
      ¬ bug BUG_DEPOSIT_ANY_PAYEE = true then _ else _) = _
  rw [if_neg hpay]
  rw [if_neg (fun hc => hd hc.1)]

/-- Withdrawing a non-positive amount raises and changes nothing. -/
lemma withdraw_nonpos (a : BankAccount) (amt : ℚ) (h : amt ≤ 0) :
    a.withdraw amt =
      (.error (.valueError "Amount to withdraw must be positive"), a) := by
  unfold BankAccount.withdraw
  rw [if_pos h]

/-- Withdrawing more than the available balance raises and changes
nothing. -/
lemma withdraw_over (a : BankAccount) (amt : ℚ) (h : a.available < amt) :
    a.withdraw amt =
      (.error (.valueError "Amount exceeds available balance"), a) := by
  have hpos : 0 < amt := lt_of_le_of_lt (available_nonneg a) h
  unfold BankAccount.withdraw
  rw [if_neg (not_le.mpr hpos), if_pos h, if_neg (by simp [bug_silent])]

/-- A withdrawal inside the available balance succeeds, returns the money
and debits exactly the amount. -/
lemma withdraw_ok (a : BankAccount) (amt : ℚ) (h1 : 0 < amt)
    (h2 : amt ≤ a.available) :
    a.withdraw amt =
      (.ok (some (Money.cash amt)),
       { a with total_balance := a.total_balance - amt }) := by
  unfold BankAccount.withdraw
  rw [if_neg (not_le.mpr h1), if_neg (not_lt.mpr h2),
    if_neg (fun hc => by simpa [bug_cant_withdraw] using hc.2)]

/-- A fresh account with a non-negative minimum balance satisfies the
invariant. -/
lemma inv_init (n : String) (mb : ℚ) (h : 0 ≤ mb) :
    Inv (BankAccount.init n mb) := by
  refine ⟨h, le_refl 0, ?_, ?_, ?_, ?_⟩ <;> simp [BankAccount.init]

/-- Operation `deposit` preserves the invariant (also on failure). -/
lemma inv_deposit (a : BankAccount) (m : Money) (h : Inv a) :
    Inv (a.deposit m).2 := by
  obtain ⟨hmb, htb, hsub, hnp, hnd, hchk⟩ := h
  by_cases hv : m.value ≤ 0
  · rw [deposit_nonpos a m hv]
    exact ⟨hmb, htb, hsub, hnp, hnd, hchk⟩
  push_neg at hv
  match m with
  | .cash v =>
    have hv' : 0 < v := hv
    rw [deposit_cash a v hv']
    exact ⟨hmb, by dsimp; linarith [hv'], hsub, hnp, hnd, hchk⟩
  | .check c =>
    have hv' : 0 < c.value := hv
    by_cases hpay : c.payee ≠ "" ∧ c.payee.toLower ≠ a.name.toLower
    · rw [deposit_check_payee_mismatch a c hv' hpay.1 hpay.2]
      exact ⟨hmb, htb, hsub, hnp, hnd, hchk⟩
    have hp : c.payee = "" ∨ c.payee.toLower = a.name.toLower := by
      by_cases h1 : c.payee = ""
      · exact Or.inl h1
      · exact Or.inr (by_contra fun h2 => hpay ⟨h1, h2⟩)
    by_cases hd : c ∈ a.deposited_checks
    · rw [deposit_check_dup a c hv' hp hd]
      exact ⟨hmb, htb, hsub, hnp, hnd, hchk⟩
    rw [deposit_check_ok a c hv' hp hd]
    refine ⟨hmb, by dsimp; linarith [hv'], ?_, ?_, ?_, ?_⟩
    · intro x hx
      rcases List.mem_append.mp hx with hx | hx
      · exact List.mem_append_left _ (hsub x hx)
      · exact List.mem_append_right _ hx
    · dsimp
      rw [List.nodup_append]
      exact ⟨hnp, List.nodup_singleton c,
        fun x hx hx1 => hd ((List.mem_singleton.mp hx1) ▸ hsub x hx)⟩
    · dsimp
      rw [List.nodup_append]
      exact ⟨hnd, List.nodup_singleton c,
        fun x hx hx1 => hd ((List.mem_singleton.mp hx1) ▸ hx)⟩
    · intro x hx
      rcases List.mem_append.mp hx with hx | hx
      · exact hchk x hx
      · rw [List.mem_singleton.mp hx]
        exact ⟨hv, hp⟩

/-- Operation `clear_check` preserves the invariant (also on failure). -/
lemma inv_clear (a : BankAccount) (c : Check) (h : Inv a) :
    Inv (a.clear_check c).2 := by
  obtain ⟨hmb, htb, hsub, hnp, hnd, hchk⟩ := h
  by_cases hm : c ∈ a.pending_checks
  · rw [clear_check_mem a c hm]
    refine ⟨hmb, htb, ?_, hnp.erase c, hnd, hchk⟩
    intro x hx
    exact hsub x (List.mem_of_mem_erase hx)
  · rw [clear_check_not_mem a c hm]
    exact ⟨hmb, htb, hsub, hnp, hnd, hchk⟩

/-- Operation `withdraw` preserves the invariant (also on failure). -/
lemma inv_withdraw (a : BankAccount) (amt : ℚ) (h : Inv a) :
    Inv (a.withdraw amt).2 := by
  obtain ⟨hmb, htb, hsub, hnp, hnd, hchk⟩ := h
  by_cases h1 : amt ≤ 0
  · rw [withdraw_nonpos a amt h1]
    exact ⟨hmb, htb, hsub, hnp, hnd, hchk⟩
  push_neg at h1
  by_cases h2 : a.available < amt
  · rw [withdraw_over a amt h2]
    exact ⟨hmb, htb, hsub, hnp, hnd, hchk⟩
  push_neg at h2
  rw [withdraw_ok a amt h1 h2]
  have hle : a.available ≤ a.total_balance := available_le_total a hmb htb
  exact ⟨hmb, by dsimp; linarith, hsub, hnp, hnd, hchk⟩

/-- Every reachable account state satisfies the invariant. -/
lemma inv_of_reachable (a : BankAccount) (h : Reachable a) : Inv a := by
  induction h with
  | init n mb hmb => exact inv_init n mb hmb
  | deposit a m ha ih => exact inv_deposit a m ih
  | clear a c ha ih => exact inv_clear a c ih
  | withdraw a amt ha ih => exact inv_withdraw a amt ih

/-- C1: for every account state, the `available` query returns
`max(0, total_balance − max(minimum_balance, sum of the values of the
currently-pending checks))` and never returns a negative number.  Being a
pure function of the state in this embedding, it has no side effects. -/
theorem C1_available_formula (a : BankAccount) :
    a.available =
      max 0 (a.total_balance -
        max a.min_balance (a.pending_checks.map Check.value).sum) ∧
    0 ≤ a.available :=
  ⟨available_eq a, available_nonneg a⟩

/-- C2: every state reachable from a fresh account by any sequence of
`deposit`, `clear_check` and `withdraw` calls satisfies: the total balance
is non-negative, the pending checks are among the deposited checks, the
available balance is non-negative, and `available ≤ balance`. -/
theorem C2_reachable_invariant (a : BankAccount) (h : Reachable a) :
    0 ≤ a.total_balance ∧
    (∀ c ∈ a.pending_checks, c ∈ a.deposited_checks) ∧
    0 ≤ a.available ∧
    a.available ≤ a.balance := by
  obtain ⟨hmb, htb, hsub, _, _, _⟩ := inv_of_reachable a h
  exact ⟨htb, hsub, available_nonneg a,
    (balance_eq a) ▸ available_le_total a hmb htb⟩

/-- Witness for C2 at a fresh account. -/
theorem C2_reachable_invariant_witness :
    0 ≤ (BankAccount.init "Alice" 0).total_balance ∧
    (∀ c ∈ (BankAccount.init "Alice" 0).pending_checks,
      c ∈ (BankAccount.init "Alice" 0).deposited_checks) ∧
    0 ≤ (BankAccount.init "Alice" 0).available ∧
    (BankAccount.init "Alice" 0).available ≤ (BankAccount.init "Alice" 0).balance :=
  C2_reachable_invariant (BankAccount.init "Alice" 0)
    (Reachable.init "Alice" 0 (le_refl 0))

/-- C3: when the available balance is `amt > 0`, `withdraw amt` succeeds,
returns a `Money` of value exactly `amt`, debits `total_balance` by `amt`,
and drives the available balance to 0. -/
theorem C3_withdraw_exact_available (a : BankAccount) (amt : ℚ)
    (h : a.available = amt) (hpos : 0 < amt) :
    (a.withdraw amt).1 = .ok (some (Money.cash amt)) ∧
    (Money.cash amt).value = amt ∧
    (a.withdraw amt).2.total_balance = a.total_balance - amt ∧
    (a.withdraw amt).2.available = 0 := by
  have hle : amt ≤ a.available := le_of_eq h.symm
  rw [withdraw_ok a amt hpos hle]
  refine ⟨rfl, rfl, rfl, ?_⟩
  have heq : a.total_balance - max a.min_balance a.sum_holds = amt := by
    have h0 := (available_eq a).symm.trans h
    rcases le_or_lt (a.total_balance - max a.min_balance a.sum_holds) 0 with hc | hc
    · rw [max_eq_left hc] at h0
      exact absurd h0.symm (ne_of_gt hpos)
    · rwa [max_eq_right hc.le] at h0
  rw [available_eq]
  show max 0 (a.total_balance - amt - max a.min_balance a.sum_holds) = 0
  have hsum : BankAccount.sum_holds
      { a with total_balance := a.total_balance - amt } = a.sum_holds := rfl
  rw [max_eq_left (by linarith)]

/-- Witness for C3: an account holding 5 with no reserves. -/
theorem C3_withdraw_exact_available_witness :
    ((⟨"A", 5, 0, [], []⟩ : BankAccount).withdraw 5).1 =
      .ok (some (Money.cash 5)) ∧
    (Money.cash 5).value = 5 ∧
    ((⟨"A", 5, 0, [], []⟩ : BankAccount).withdraw 5).2.total_balance =
      (⟨"A", 5, 0, [], []⟩ : BankAccount).total_balance - 5 ∧
    ((⟨"A", 5, 0, [], []⟩ : BankAccount).withdraw 5).2.available = 0 :=
  C3_withdraw_exact_available ⟨"A", 5, 0, [], []⟩ 5
    (by rw [available_eq]; norm_num [BankAccount.sum_holds, max_def])
    (by norm_num)

/-- C4: the `withdraw` operation fails with the invalid-amount `ValueError` when the
requested amount is non-positive, fails with the insufficient-funds
`ValueError` when it exceeds the available balance, and in both cases the
returned account state is the input state unchanged. -/
theorem C4_withdraw_failures (a : BankAccount) (amt : ℚ) :
    (amt ≤ 0 →
      a.withdraw amt =
        (.error (.valueError "Amount to withdraw must be positive"), a)) ∧
    (a.available < amt →
      a.withdraw amt =
        (.error (.valueError "Amount exceeds available balance"), a)) :=
  ⟨withdraw_nonpos a amt, withdraw_over a amt⟩

/-- Witness for C4 at amounts -1 and 100 on a fresh account. -/
theorem C4_withdraw_failures_witness :
    (BankAccount.init "A" 0).withdraw (-1) =
      (.error (.valueError "Amount to withdraw must be positive"),
        BankAccount.init "A" 0) ∧
    (BankAccount.init "A" 0).withdraw 100 =
      (.error (.valueError "Amount exceeds available balance"),
        BankAccount.init "A" 0) :=
  ⟨(C4_withdraw_failures (BankAccount.init "A" 0) (-1)).1 (by norm_num),
   (C4_withdraw_failures (BankAccount.init "A" 0) 100).2
      (by rw [available_eq]
          norm_num [BankAccount.init, BankAccount.sum_holds, max_def])⟩

/-- C5: a successful deposit has a strictly positive value and credits
`total_balance` (hence `balance`) by exactly that value; cash leaves both
check lists unchanged, while a check is appended to both the pending and
the deposited lists. -/
theorem C5_deposit_success (a : BankAccount) (m : Money)
    (h : (a.deposit m).1 = .ok ()) :
    0 < m.value ∧
    (a.deposit m).2.total_balance = a.total_balance + m.value ∧
    (a.deposit m).2.balance = a.balance + m.value ∧
    (∀ v, m = .cash v →
      (a.deposit m).2.pending_checks = a.pending_checks ∧
      (a.deposit m).2.deposited_checks = a.deposited_checks) ∧
    (∀ c, m = .check c →
      (a.deposit m).2.pending_checks = a.pending_checks ++ [c] ∧
      (a.deposit m).2.deposited_checks = a.deposited_checks ++ [c]) := by
  by_cases hv : m.value ≤ 0
  · rw [deposit_nonpos a m hv] at h
    exact absurd h (by simp)
  push_neg at hv
  match m with
  | .cash v =>
    have hv' : 0 < v := hv
    rw [deposit_cash a v hv']
    refine ⟨hv, ?_, ?_, ?_, ?_⟩
    · exact rfl
    · rw [balance_eq, balance_eq]
      exact rfl
    · intro w hw
      exact ⟨rfl, rfl⟩
    · intro w hw
      cases hw
  | .check c =>
    have hv' : 0 < c.value := hv
    by_cases hpay : c.payee ≠ "" ∧ c.payee.toLower ≠ a.name.toLower
    · rw [deposit_check_payee_mismatch a c hv' hpay.1 hpay.2] at h
      exact absurd h (by simp)
    have hp : c.payee = "" ∨ c.payee.toLower = a.name.toLower := by
      by_cases h1 : c.payee = ""
      · exact Or.inl h1
      · exact Or.inr (by_contra fun h2 => hpay ⟨h1, h2⟩)
    by_cases hd : c ∈ a.deposited_checks
    · rw [deposit_check_dup a c hv' hp hd] at h
      exact absurd h (by simp)
    rw [deposit_check_ok a c hv' hp hd]
    refine ⟨hv, ?_, ?_, ?_, ?_⟩
    · exact rfl
    · rw [balance_eq, balance_eq]
      exact rfl
    · intro w hw
      cases hw
    · intro w hw
      cases hw
      exact ⟨rfl, rfl⟩

/-- Witness for C5: depositing cash 5 into a fresh account. -/
theorem C5_deposit_success_witness :
    0 < (Money.cash 5).value ∧
    ((BankAccount.init "A" 0).deposit (Money.cash 5)).2.total_balance =
      (BankAccount.init "A" 0).total_balance + (Money.cash 5).value ∧
    ((BankAccount.init "A" 0).deposit (Money.cash 5)).2.balance =
      (BankAccount.init "A" 0).balance + (Money.cash 5).value ∧
    (∀ v, Money.cash 5 = .cash v →
      ((BankAccount.init "A" 0).deposit (Money.cash 5)).2.pending_checks =
        (BankAccount.init "A" 0).pending_checks ∧
      ((BankAccount.init "A" 0).deposit (Money.cash 5)).2.deposited_checks =
        (BankAccount.init "A" 0).deposited_checks) ∧
    (∀ c, Money.cash 5 = .check c →
      ((BankAccount.init "A" 0).deposit (Money.cash 5)).2.pending_checks =
        (BankAccount.init "A" 0).pending_checks ++ [c] ∧
      ((BankAccount.init "A" 0).deposit (Money.cash 5)).2.deposited_checks =
        (BankAccount.init "A" 0).deposited_checks ++ [c]) :=
  C5_deposit_success (BankAccount.init "A" 0) (Money.cash 5)
    (by rw [deposit_cash _ 5 (by norm_num)])

/-- C6: in any reachable state, depositing a check whose identity is
already among the deposited checks (still pending or already cleared)
fails with the already-deposited `CheckError` and returns the account
unchanged, so the first deposit's effects are preserved and a cleared
check can never be redeposited. -/
theorem C6_redeposit_rejected (a : BankAccount) (c : Check)
    (hr : Reachable a) (hd : c ∈ a.deposited_checks) :
    a.deposit (.check c) = (.error (.checkError "Check already deposited"), a) := by
  obtain ⟨_, _, _, _, _, hchk⟩ := inv_of_reachable a hr
  obtain ⟨hv, hp⟩ := hchk c hd
  exact deposit_check_dup a c hv hp hd

/-- Witness for C6: redepositing the single check of an account that
received it once. -/
theorem C6_redeposit_rejected_witness :
    (((BankAccount.init "Bob" 0).deposit (Money.check ⟨100, "", 1⟩)).2).deposit
        (.check ⟨100, "", 1⟩) =
      (.error (.checkError "Check already deposited"),
        ((BankAccount.init "Bob" 0).deposit (Money.check ⟨100, "", 1⟩)).2) := by
  have hd : (⟨100, "", 1⟩ : Check) ∈
      ((BankAccount.init "Bob" 0).deposit
        (Money.check ⟨100, "", 1⟩)).2.deposited_checks := by
    rw [deposit_check_ok _ _ (by norm_num) (Or.inl rfl) (List.not_mem_nil _)]
    exact List.mem_append_right _ (List.mem_singleton_self _)
  exact C6_redeposit_rejected _ ⟨100, "", 1⟩
    (Reachable.deposit _ _ (Reachable.init "Bob" 0 (le_refl 0))) hd

/-- C7: depositing a positive-value check with a non-empty payee that does
not match the owner name case-insensitively fails with the payee
`CheckError` and returns the account unchanged; a check with an empty
payee is not subject to this rejection (a fresh one deposits
successfully). -/
theorem C7_payee_check (a : BankAccount) (c : Check) :
    (0 < c.value → c.payee ≠ "" → c.payee.toLower ≠ a.name.toLower →
      a.deposit (.check c) =
        (.error (.checkError
          ("Check payee " ++ c.payee ++ " is not account owner")), a)) ∧
    (c.payee = "" → 0 < c.value → c ∉ a.deposited_checks →
      a.deposit (.check c) =
        (.ok (), { a with
          pending_checks := a.pending_checks ++ [c]
          deposited_checks := a.deposited_checks ++ [c]
          total_balance := a.total_balance + c.value })) :=
  ⟨fun hv h1 h2 => deposit_check_payee_mismatch a c hv h1 h2,
   fun hp hv hd => deposit_check_ok a c hv (Or.inl hp) hd⟩

/-- Witness for C7: a check payable to Alice rejected by Bob's account, and
a payee-less check accepted. -/
theorem C7_payee_check_witness :
    (BankAccount.init "Bob" 0).deposit (.check ⟨100, "Alice", 1⟩) =
      (.error (.checkError "Check payee Alice is not account owner"),
        BankAccount.init "Bob" 0) ∧
    (BankAccount.init "Bob" 0).deposit (.check ⟨100, "", 2⟩) =
      (.ok (), { BankAccount.init "Bob" 0 with
        pending_checks := (BankAccount.init "Bob" 0).pending_checks ++ [⟨100, "", 2⟩]
        deposited_checks :=
          (BankAccount.init "Bob" 0).deposited_checks ++ [⟨100, "", 2⟩]
        total_balance := (BankAccount.init "Bob" 0).total_balance + 100 }) :=
  ⟨(C7_payee_check (BankAccount.init "Bob" 0) ⟨100, "Alice", 1⟩).1
      (by norm_num) (by decide)
      (by simp only [String.toLower, String.map_eq]; decide),
   (C7_payee_check (BankAccount.init "Bob" 0) ⟨100, "", 2⟩).2
      rfl (by norm_num) (List.not_mem_nil _)⟩

/-- C8: clearing a pending check removes it from the pending list and
changes nothing else; clearing a check that is not pending fails with the
not-pending `CheckError` and returns the account unchanged; in a reachable
state, clearing the same check a second time therefore fails. -/
theorem C8_clear_check (a : BankAccount) (c : Check) :
    (c ∈ a.pending_checks →
      a.clear_check c =
        (.ok (), { a with pending_checks := a.pending_checks.erase c })) ∧
    (c ∉ a.pending_checks →
      a.clear_check c =
        (.error (.checkError
          ("Check " ++ toString c.check_number ++ " is not an uncleared check")), a)) ∧
    (Reachable a → c ∈ a.pending_checks →
      c ∉ (a.clear_check c).2.pending_checks ∧
      ((a.clear_check c).2.clear_check c).1 =
        .error (.checkError
          ("Check " ++ toString c.check_number ++ " is not an uncleared check"))) := by
  refine ⟨clear_check_mem a c, clear_check_not_mem a c, fun hr hm => ?_⟩
  obtain ⟨_, _, _, hnp, _, _⟩ := inv_of_reachable a hr
  rw [clear_check_mem a c hm]
  have hout : c ∉ a.pending_checks.erase c := hnp.not_mem_erase
  exact ⟨hout, by rw [clear_check_not_mem _ c hout]⟩

/-- Witness for C8: the single pending check of a one-check account. -/
theorem C8_clear_check_witness :
    (((BankAccount.init "Bob" 0).deposit
        (Money.check ⟨100, "", 1⟩)).2.clear_check ⟨100, "", 1⟩) =
      (.ok (), { ((BankAccount.init "Bob" 0).deposit
          (Money.check ⟨100, "", 1⟩)).2 with
        pending_checks := (((BankAccount.init "Bob" 0).deposit
          (Money.check ⟨100, "", 1⟩)).2.pending_checks).erase ⟨100, "", 1⟩ }) ∧
    ((((BankAccount.init "Bob" 0).deposit
        (Money.check ⟨100, "", 1⟩)).2.clear_check ⟨100, "", 1⟩).2.clear_check
        ⟨100, "", 1⟩).1 =
      .error (.checkError "Check 1 is not an uncleared check") := by
  have hm : (⟨100, "", 1⟩ : Check) ∈
      ((BankAccount.init "Bob" 0).deposit
        (Money.check ⟨100, "", 1⟩)).2.pending_checks := by
    rw [deposit_check_ok _ _ (by norm_num) (Or.inl rfl) (List.not_mem_nil _)]
    exact List.mem_append_right _ (List.mem_singleton_self _)
  exact ⟨(C8_clear_check _ ⟨100, "", 1⟩).1 hm,
    ((C8_clear_check _ ⟨100, "", 1⟩).2.2
      (Reachable.deposit _ _ (Reachable.init "Bob" 0 (le_refl 0))) hm).2⟩

/-- C9: the `withdraw` operation never modifies the check lists, the minimum balance or
the owner name, and `clear_check` never modifies the minimum balance, the
owner name or the deposited-check list — whether the call succeeds or
fails. -/
theorem C9_frame_conditions (a : BankAccount) (amt : ℚ) (c : Check) :
    ((a.withdraw amt).2.pending_checks = a.pending_checks ∧
     (a.withdraw amt).2.deposited_checks = a.deposited_checks ∧
     (a.withdraw amt).2.min_balance = a.min_balance ∧
     (a.withdraw amt).2.name = a.name) ∧
    ((a.clear_check c).2.min_balance = a.min_balance ∧
     (a.clear_check c).2.name = a.name ∧
     (a.clear_check c).2.deposited_checks = a.deposited_checks) := by
  constructor
  · by_cases h1 : amt ≤ 0
    · rw [withdraw_nonpos a amt h1]
      exact ⟨rfl, rfl, rfl, rfl⟩
    push_neg at h1
    by_cases h2 : a.available < amt
    · rw [withdraw_over a amt h2]
      exact ⟨rfl, rfl, rfl, rfl⟩
    push_neg at h2
    rw [withdraw_ok a amt h1 h2]
    exact ⟨rfl, rfl, rfl, rfl⟩
  · by_cases hm : c ∈ a.pending_checks
    · rw [clear_check_mem a c hm]
      exact ⟨rfl, rfl, rfl⟩
    · rw [clear_check_not_mem a c hm]
      exact ⟨rfl, rfl, rfl⟩

/-- C10: in every reachable state, no check identity occurs twice in the
pending list and none occurs twice in the deposited list, although both
are stored as plain lists. -/
theorem C10_no_duplicates (a : BankAccount) (h : Reachable a) :
    a.pending_checks.Nodup ∧ a.deposited_checks.Nodup := by
  obtain ⟨_, _, _, hnp, hnd, _⟩ := inv_of_reachable a h
  exact ⟨hnp, hnd⟩

/-- Witness for C10 at a one-check account. -/
theorem C10_no_duplicates_witness :
    (((BankAccount.init "Bob" 0).deposit
        (Money.check ⟨100, "bob", 1⟩)).2).pending_checks.Nodup ∧
    (((BankAccount.init "Bob" 0).deposit
        (Money.check ⟨100, "bob", 1⟩)).2).deposited_checks.Nodup :=
  C10_no_duplicates _
    (Reachable.deposit _ _ (Reachable.init "Bob" 0 (le_refl 0)))

end BankOracle
